import Mathlib

/-!
Verification of the lxmin backup/restore orchestration subsystem.

Go strings are modelled as `List Char` (UTF-8 byte order on Go strings
coincides with codepoint order, which is the order on `Char`).  The Go
standard-library helpers used by the sources (`strings.HasPrefix`,
`strings.TrimSuffix`, `path.Join`, `path.Clean`, `path.Base`,
`fmt.Sprintf "%03d"`, `strings.TrimSpace`) are modelled by executable
functions below, following their documented lexical semantics.
-/

namespace Lxmin

/-- Go strings, as lists of characters. -/
abbrev GoStr := List Char

/-- Shorthand turning a Lean string literal into a `GoStr`. -/
def lit (s : String) : GoStr := s.toList

/-- Model of Go `strings.HasPrefix s pre`. -/
def goHasPfx : GoStr → GoStr → Bool
  | _, [] => true
  | [], _ :: _ => false
  | c :: s, d :: p => c = d && goHasPfx s p

/-- Model of Go `strings.TrimPrefix s pre`: drop `pre` when it is a prefix, else `s` unchanged. -/
def goTrimPfx (s pre : GoStr) : GoStr :=
  if goHasPfx s pre then s.drop pre.length else s

/-- Model of Go `strings.HasSuffix s suf`. -/
def goHasSfx (s suf : GoStr) : Bool :=
  goHasPfx s.reverse suf.reverse

/-- Model of Go `strings.TrimSuffix s suf`: drop `suf` when it is a suffix, else `s` unchanged. -/
def goTrimSfx (s suf : GoStr) : GoStr :=
  if goHasSfx s suf then s.take (s.length - suf.length) else s

/-- ASCII whitespace recognised by the `strings.TrimSpace` model. -/
def isGoSpace (c : Char) : Bool :=
  c = ' ' || c = '\t' || c = '\n' || c = '\r' || c = '\x0b' || c = '\x0c'

/-- Model of Go `strings.TrimSpace`. -/
def trimSpace (s : GoStr) : GoStr :=
  ((s.dropWhile isGoSpace).reverse.dropWhile isGoSpace).reverse

/-- Lexicographic (byte) order on Go strings, non-strict: `leStr s t` is
true iff `s <= t` in the order object storage uses for key listings. -/
def leStr : GoStr → GoStr → Bool
  | [], _ => true
  | _ :: _, [] => false
  | c :: s, d :: t => if c = d then leStr s t else decide (c < d)

/-- Split a path on `'/'`, keeping empty segments (helper for the `path.Clean` model). -/
def splitSlash : GoStr → List GoStr
  | [] => [[]]
  | c :: rest =>
    if c = '/' then [] :: splitSlash rest
    else
      match splitSlash rest with
      | s :: ss => (c :: s) :: ss
      | [] => [[c]]

/-- Join segments with `'/'` (helper for the `path.Clean` model). -/
def joinSlash : List GoStr → GoStr
  | [] => []
  | [s] => s
  | s :: ss => s ++ '/' :: joinSlash ss

/-- One step of `path.Clean` segment processing: drop empty and `"."`
segments; on `".."` pop the previous segment when possible, keep `".."`
for non-rooted paths that cannot pop, drop it at the root. -/
def cleanStep (rooted : Bool) (acc : List GoStr) (seg : GoStr) : List GoStr :=
  if seg = [] || seg = ['.'] then acc
  else if seg = ['.', '.'] then
    if acc ≠ [] ∧ acc.getLast? ≠ some ['.', '.'] then acc.dropLast
    else if rooted then acc
    else acc ++ [seg]
  else acc ++ [seg]

/-- Render the cleaned segment stack: a leading slash for rooted paths,
`"."` for an empty non-rooted result. -/
def renderClean (rooted : Bool) (st : List GoStr) : GoStr :=
  if rooted then '/' :: joinSlash st
  else if joinSlash st = [] then ['.'] else joinSlash st

/-- Model of Go `path.Clean`: purely lexical shortest equivalent path. -/
def goPathClean (s : GoStr) : GoStr :=
  if s = [] then ['.']
  else
    renderClean (decide (s.head? = some '/'))
      ((splitSlash s).foldl (cleanStep (decide (s.head? = some '/'))) [])

/-- Model of Go `path.Join a b` (two-argument form used by the sources):
concatenate the non-empty parts with `'/'` and `Clean` the result. -/
def goPathJoin (a b : GoStr) : GoStr :=
  if a = [] && b = [] then []
  else if a = [] then goPathClean b
  else goPathClean (a ++ '/' :: b)

/-- Model of Go `path.Base`: the last element of the path after stripping
trailing slashes; `"."` for the empty path, `"/"` for all-slash paths. -/
def goPathBase (s : GoStr) : GoStr :=
  if s = [] then ['.']
  else if s.reverse.dropWhile (· = '/') = [] then ['/']
  else ((s.reverse.dropWhile (· = '/')).takeWhile (· ≠ '/')).reverse

/-- Decimal digit character for `d < 10`. -/
def digitChar (d : Nat) : Char := Char.ofNat (48 + d)

/-- Fuel-driven most-significant-first decimal digits (helper). -/
def natDigitsFuel : Nat → Nat → GoStr
  | 0, _ => []
  | fuel + 1, n =>
    if n < 10 then [digitChar n]
    else natDigitsFuel fuel (n / 10) ++ [digitChar (n % 10)]

/-- Decimal digit string of a natural number, most significant first. -/
def natDigits (n : Nat) : GoStr := natDigitsFuel (n + 1) n

/-- Model of Go `fmt.Sprintf "%03d" n`: decimal digits zero-padded on the
left to width 3. -/
def fmt3 (n : Nat) : GoStr :=
  List.replicate (3 - (natDigits n).length) '0' ++ natDigits n

/-- Insert a key into a sorted key list (helper of the listing model). -/
def insertKey (x : GoStr) : List GoStr → List GoStr
  | [] => [x]
  | y :: ys => if leStr x y then x :: y :: ys else y :: insertKey x ys

/-- Lexicographically ordered listing of a set of object keys: object
storage returns keys in ascending byte order, modelled as a sort. -/
def sortKeys : List GoStr → List GoStr
  | [] => []
  | x :: xs => insertKey x (sortKeys xs)

/-- Staged profile file name, from `backupProfiles` (backup.go):
`fmt.Sprintf("%s_profile_%03d_%s.yaml", backupNamePrefix, pno, profile)`. -/
def profileFileName (backupName : GoStr) (pno : Nat) (profile : GoStr) : GoStr :=
  backupName ++ lit "_profile_" ++ fmt3 pno ++ '_' :: profile ++ lit ".yaml"

/-- Instance archive object / staged file name, from `backupInstance`
(backup.go): `backupNamePrefix + "_instance.tar.gz"`. -/
def instanceFileName (backupName : GoStr) : GoStr :=
  backupName ++ lit "_instance.tar.gz"

/-- Profile object keys generated by the create-backup pipeline for the
profiles starting at index `k` (the Go loop counter `pno`): each key is
`path.Join(instance, profileFile)` as in `uploadProfilesBackup`. -/
def genKeysFrom (inst backupName : GoStr) (k : Nat) : List GoStr → List GoStr
  | [] => []
  | p :: ps => goPathJoin inst (profileFileName backupName k p) :: genKeysFrom inst backupName (k + 1) ps

/-- All profile object keys of one backup, in profile-list order. -/
def backupProfileKeys (inst backupName : GoStr) (profiles : List GoStr) : List GoStr :=
  genKeysFrom inst backupName 0 profiles

/-- The expected profile-key prefix at listing position `pno`, from
`fetchRestoreInfo` / `collectBackupInfo`:
`fmt.Sprintf("%s_profile_%03d_", backupName, pno)`. -/
def expectedProfilePfx (backupName : GoStr) (pno : Nat) : GoStr :=
  backupName ++ lit "_profile_" ++ fmt3 pno ++ ['_']

/-- The profile name a key parses to at position `pno`, from
`fetchRestoreInfo`: trim the `.yaml` suffix off `path.Base(key)`, then the
expected prefix. -/
def parsedProfileName (backupName : GoStr) (pno : Nat) (key : GoStr) : GoStr :=
  goTrimPfx (goTrimSfx (goPathBase key) (lit ".yaml")) (expectedProfilePfx backupName pno)

/-- Validity of a profile object key at listing position `pno`, from the
check in `fetchRestoreInfo` / `collectBackupInfo`: the base name carries
the expected prefix, the key ends in `.yaml`, and the remaining profile
name is non-empty. -/
def validProfileKey (backupName : GoStr) (pno : Nat) (key : GoStr) : Bool :=
  goHasPfx (goPathBase key) (expectedProfilePfx backupName pno) &&
    goHasSfx key (lit ".yaml") && parsedProfileName backupName pno key ≠ []

/-- Parse a sorted profile-key listing starting at position `k`,
mirroring the sequential loop of `fetchRestoreInfo`: each key must be
valid at its position, and contributes its parsed profile name. -/
def parseKeysFrom (backupName : GoStr) (k : Nat) : List GoStr → Option (List GoStr)
  | [] => some []
  | key :: keys =>
    if validProfileKey backupName k key then
      (parseKeysFrom backupName (k + 1) keys).map (parsedProfileName backupName k key :: ·)
    else none

/-- Parse a complete profile-key listing back into the ordered profile
name list (positions counted from 0, as in `fetchRestoreInfo`). -/
def parseProfileKeyList (backupName : GoStr) (keys : List GoStr) : Option (List GoStr) :=
  parseKeysFrom backupName 0 keys

/-- A plain path segment: non-empty, free of `'/'` and not one of the
special elements `"."` and `".."` that `path.Clean` rewrites. -/
def normalSeg (f : GoStr) : Prop :=
  f ≠ [] ∧ '/' ∉ f ∧ f ≠ ['.'] ∧ f ≠ ['.', '.']

instance (f : GoStr) : Decidable (normalSeg f) := by
  unfold normalSeg; infer_instance

/-- The cleaned segment stack of a path (helper for factoring `path.Join`). -/
def cleanStack (rooted : Bool) (s : GoStr) : List GoStr :=
  (splitSlash s).foldl (cleanStep rooted) []

/-- The part of `path.Join inst f` that does not depend on the final
segment `f`: `goPathJoin inst f = stemOf inst ++ f` for plain segments `f`. -/
def stemOf (i : GoStr) : GoStr :=
  if i = [] then []
  else
    (if decide (i.head? = some '/') then ['/'] else []) ++
      (if cleanStack (decide (i.head? = some '/')) i = [] then []
       else joinSlash (cleanStack (decide (i.head? = some '/')) i) ++ ['/'])

/-- A stem is empty or ends in `'/'`; `path.Base` then returns the final segment. -/
def goodStem (stem : GoStr) : Prop := stem = [] ∨ ∃ s, stem = s ++ ['/']

/-- Outcome of `checkInstance` (lxc.go): `none` when the listing command
succeeds and its trimmed output differs from the instance name. -/
inductive ChkErr where
  /-- the `lxc list` command itself failed; its error is returned as-is -/
  | cmdFailed : ChkErr
  /-- the trimmed listing output equals the name: the
  `'%s' instance is already running by this name` error wrapping `instanceExists` -/
  | running (inst : GoStr) : ChkErr
deriving DecidableEq

/-- Model of `checkInstance` (lxc.go): run `lxc list <inst> -c n -f csv`,
fail if the command fails, return the wrapped `instanceExists` error when
the trimmed stdout equals the instance name, else nil. -/
def checkInstanceModel (cmdOk : Bool) (out inst : GoStr) : Option ChkErr :=
  if ¬cmdOk then some .cmdFailed
  else if trimSpace out = inst then some (.running inst) else none

/-- Whether a `checkInstance` error wraps the `instanceExists` sentinel. -/
def wrapsInstanceExists : ChkErr → Bool
  | .running _ => true
  | .cmdFailed => false

/-- A listed object: key and size, as consumed by `collectBackupInfo`. -/
structure ObjInfo where
  key : GoStr
  size : Int
deriving DecidableEq

/-- An item received from the object-listing channel: an object, or an
error delivered in-stream (minio-go closes the channel after an error). -/
inductive LItem where
  | obj (o : ObjInfo) : LItem
  | lerr (msg : GoStr) : LItem
deriving DecidableEq

/-- Errors of the CLI restore pipeline (src/restore.go); `log.Fatalln`
sites are modelled as returning the corresponding error. -/
inductive RErr where
  | chk (e : ChkErr) : RErr
  | listFail (msg : GoStr) : RErr
  | malformed (key : GoStr) : RErr
  | statFail : RErr
  | downloadFail (key : GoStr) : RErr
  | profListFail : RErr
  | createFail (p : GoStr) : RErr
  | openFail (f : GoStr) : RErr
  | editFail (p : GoStr) : RErr
  | importFail : RErr
  | startFail : RErr
deriving DecidableEq

/-- The message text of a restore error (as formatted by the source). -/
def rerrMsg : RErr → GoStr
  | .malformed key => lit "Unexpected profile file found: " ++ key
  | .listFail msg => lit "Error listing backup files: " ++ msg
  | .statFail => lit "Error getting instance backup file info"
  | .downloadFail key => lit "Error downloading profile file " ++ key
  | .chk .cmdFailed => lit "exit status 1"
  | .chk (.running inst) => ('\'' :: inst) ++ lit "' instance is already running by this name: instance exists"
  | .profListFail => lit "exit status 1"
  | .createFail p => lit "Error creating profile " ++ p
  | .openFail f => lit "open " ++ f ++ lit ": no such file or directory"
  | .editFail p => lit "Error restoring profile " ++ p
  | .importFail => lit "Error importing instance"
  | .startFail => lit "Error starting instance"

/-- The restore plan built by `collectBackupInfo` / `fetchRestoreInfo`. -/
structure RestoreInfoM where
  profiles : List GoStr
  profileKeys : List GoStr
  totalSize : Int
deriving DecidableEq

/-- The listing loop of `collectBackupInfo` (restore.go): position counter
`pno`, sequential validation of each key, accumulation of parsed names,
keys and sizes; an in-stream listing error or an invalid key is fatal. -/
def collectLoop (b : GoStr) (pno : Nat) (acc : RestoreInfoM) : List LItem → Except RErr RestoreInfoM
  | [] => .ok acc
  | .lerr m :: _ => .error (.listFail m)
  | .obj o :: rest =>
    if validProfileKey b pno o.key then
      collectLoop b (pno + 1)
        ⟨acc.profiles ++ [parsedProfileName b pno o.key], acc.profileKeys ++ [o.key],
          acc.totalSize + o.size⟩ rest
    else .error (.malformed o.key)

/-- External world of one CLI restore run: command results and storage
contents, treated as opaque capabilities per the component design. -/
structure RestoreEnv where
  lxcListOk : Bool
  lxcListOut : GoStr
  listing : List LItem
  statOk : Bool
  statSize : Int
  downloadOk : GoStr → Bool
  profListOk : Bool
  existingProfiles : List GoStr
  createOk : GoStr → Bool
  openOk : GoStr → Bool
  editOk : GoStr → Bool
  importOk : Bool
  startOk : Bool

/-- Model of `collectBackupInfo` (restore.go): run the listing loop, then
stat the instance archive and add its size to the progress total. -/
def collectBackupInfoModel (env : RestoreEnv) (b : GoStr) : Except RErr RestoreInfoM :=
  match collectLoop b 0 ⟨[], [], 0⟩ env.listing with
  | .error e => .error e
  | .ok acc =>
    if env.statOk then .ok { acc with totalSize := acc.totalSize + env.statSize }
    else .error .statFail

/-- Observable effects of one CLI restore run. -/
structure RTrace where
  listed : Bool := false
  statted : Bool := false
  downloads : List GoStr := []
  createdProfiles : List GoStr := []
  skippedProfiles : List GoStr := []
  importedInstance : Bool := false
  startedInstance : Bool := false
deriving DecidableEq

/-- Sequential download of a list of object keys (`downloadBackupFiles`
profile loop): stops at the first failure, reporting performed downloads. -/
def downloadLoop (env : RestoreEnv) : List GoStr → List GoStr × Option RErr
  | [] => ([], none)
  | k :: ks =>
    if env.downloadOk k then
      (k :: (downloadLoop env ks).1, (downloadLoop env ks).2)
    else ([], some (.downloadFail k))

/-- Model of `downloadBackupFiles` (restore.go): download every profile
object, then the instance archive. -/
def downloadBackupFilesModel (env : RestoreEnv) (inst b : GoStr) (ri : RestoreInfoM) :
    List GoStr × Option RErr :=
  match downloadLoop env ri.profileKeys with
  | (ds, some e) => (ds, some e)
  | (ds, none) =>
    let ik := goPathJoin inst (instanceFileName b)
    if env.downloadOk ik then (ds ++ [ik], none) else (ds, some (.downloadFail ik))

/-- The per-profile loop of `restoreProfiles` (restore.go): skip profiles
that already exist on the target (logged, non-fatal), otherwise create the
profile, open the staging file named after the bare profile name
(restore.go line 201) and feed it to `lxc profile edit`; any failure there
is `log.Fatalln`.  Returns created profiles, skipped profiles, and the
fatal error if any. -/
def restoreProfilesGoLoop (env : RestoreEnv) (existing : List GoStr)
    (created skipped : List GoStr) : List GoStr → List GoStr × List GoStr × Option RErr
  | [] => (created, skipped, none)
  | pf :: pfs =>
    if existing.contains pf then
      restoreProfilesGoLoop env existing created (skipped ++ [pf]) pfs
    else if ¬env.createOk pf then (created, skipped, some (.createFail pf))
    else if ¬env.openOk pf then (created, skipped, some (.openFail pf))
    else if ¬env.editOk pf then (created, skipped, some (.editFail pf))
    else restoreProfilesGoLoop env existing (created ++ [pf]) skipped pfs

/-- Model of `restoreInstance` (restore.go): `lxc import` then `lxc start`,
each fatal on failure. -/
def restoreInstanceModelGo (env : RestoreEnv) : Option RErr :=
  if ¬env.importOk then some .importFail
  else if ¬env.startOk then some .startFail
  else none

/-- Model of the CLI `restoreMain` pipeline (restore.go): instance
existence pre-check, restore-info collection, downloads, profile restore,
instance import and start, with the effect trace of each run. -/
def restoreMainModel (env : RestoreEnv) (inst b : GoStr) : Option RErr × RTrace :=
  match checkInstanceModel env.lxcListOk env.lxcListOut inst with
  | some e => (some (.chk e), {})
  | none =>
    match collectBackupInfoModel env b with
    | .error e =>
      (some e, { listed := true, statted := (collectLoop b 0 ⟨[], [], 0⟩ env.listing).isOk })
    | .ok ri =>
      match downloadBackupFilesModel env inst b ri with
      | (ds, some e) => (some e, { listed := true, statted := true, downloads := ds })
      | (ds, none) =>
        if ¬env.profListOk then
          (some .profListFail, { listed := true, statted := true, downloads := ds })
        else
          match restoreProfilesGoLoop env env.existingProfiles [] [] ri.profiles with
          | (cr, sk, some e) =>
            (some e,
              { listed := true, statted := true, downloads := ds,
                createdProfiles := cr, skippedProfiles := sk })
          | (cr, sk, none) =>
            (restoreInstanceModelGo env,
              { listed := true, statted := true, downloads := ds,
                createdProfiles := cr, skippedProfiles := sk,
                importedInstance := env.importOk,
                startedInstance := env.importOk && env.startOk })

/-- Per-profile outcome of the later restore-profiles variant. -/
inductive PResult where
  /-- collision with an existing target profile: skipped with a warning
  message, staged file removed (`warnMsgErr` in lxc.go) -/
  | warnSkip (profile removedFile : GoStr) : PResult
  /-- profile created, staged file content fed to `lxc profile edit`,
  staged file removed -/
  | created (profile fedFile removedFile : GoStr) : PResult
  | failedCreate (profile : GoStr) : PResult
  | failedOpen (file : GoStr) : PResult
  | failedEdit (profile : GoStr) : PResult
deriving DecidableEq

/-- Whether an outcome is the non-fatal collision warning. -/
def isWarnResult : PResult → Bool
  | .warnSkip _ _ => true
  | _ => false

/-- External command/file results for the profile-restore loop. -/
structure ProfEnv where
  createOk : GoStr → Bool
  openOk : GoStr → Bool
  editOk : GoStr → Bool

/-- Model of `restoreProfile` (lxc.go): the staged file is
`path.Base(profileKey)` in the staging root; an existing same-named
profile is skipped with a warning and its staged file removed; otherwise
create the profile, open the staged file, feed it to `lxc profile edit`,
and remove the staged file on success. -/
def restoreProfileModel (env : ProfEnv) (existing : List GoStr) (profile keyStr : GoStr) : PResult :=
  let proFile := goPathBase keyStr
  if existing.contains profile then .warnSkip profile proFile
  else if ¬env.createOk profile then .failedCreate profile
  else if ¬env.openOk proFile then .failedOpen proFile
  else if ¬env.editOk profile then .failedEdit profile
  else .created profile proFile proFile

/-- Model of the `restoreProfiles` driver loop (the variant that calls
`restoreProfile` once per backed-up profile, in original order, displaying
warnings and errors without aborting the restore). -/
def restoreProfilesModel (env : ProfEnv) (existing ps ks : List GoStr) : List PResult :=
  (ps.zip ks).map fun pk => restoreProfileModel env existing pk.1 pk.2

/-- Errors of the CLI backup pipeline (src/backup.go). -/
inductive BErr where
  | tagsErr : BErr
  /-- `fmt.Errorf("no instance found by name: '%s'", instance)` -/
  | noInstanceFound (inst : GoStr) : BErr
  /-- `log.Fatalf("More than a 1000 profiles per instance not supported.")` -/
  | tooManyProfiles : BErr
  /-- `os.Stat` of the staged instance archive failed -/
  | statFail : BErr
  | uploadFail (key : GoStr) : BErr
deriving DecidableEq

/-- The message text of a backup error (as formatted by the source). -/
def berrMsg : BErr → GoStr
  | .noInstanceFound inst => lit "no instance found by name: '" ++ inst ++ ['\'']
  | .tooManyProfiles => lit "More than a 1000 profiles per instance not supported."
  | .tagsErr => lit "tags parse error"
  | .statFail => lit "Unable to stat file"
  | .uploadFail key => lit "Error uploading file " ++ key

/-- External world of one CLI backup run. -/
structure BackupEnv where
  tagsOk : Bool
  lxcListOk : Bool
  lxcListOut : GoStr
  profListOk : Bool
  profiles : List GoStr
  instStatOk : Bool
  uploadOk : GoStr → Bool
  timeStr : GoStr

/-- Observable effects of one CLI backup run. -/
structure BTrace where
  nameGenerated : Bool := false
  listedProfiles : Bool := false
  profileExports : List GoStr := []
  instanceExportRun : Bool := false
  uploads : List GoStr := []
deriving DecidableEq

/-- Go map update: the later write wins. -/
def mapInsert (m : GoStr → GoStr) (key val : GoStr) : GoStr → GoStr :=
  fun x => if x = key then val else m x

/-- The `pInfo` map built by the export loop of `backupProfiles`
(backup.go): profile name to staged file name, indexed by loop position;
a duplicate profile name overwrites its earlier entry, as a Go map does. -/
def buildPInfoFun (bName : GoStr) (k : Nat) (m : GoStr → GoStr) : List GoStr → (GoStr → GoStr)
  | [] => m
  | p :: ps => buildPInfoFun bName (k + 1) (mapInsert m p (profileFileName bName k p)) ps

/-- The upload loop of `uploadProfilesBackup` (backup.go): for each
profile of the ordered list, upload the staged file recorded in the
`pInfo` map to `path.Join(instance, profileFile)`; stop at the first
failure.  Returns the keys uploaded, in order. -/
def uploadProfilesLoop (env : BackupEnv) (inst : GoStr) (m : GoStr → GoStr) :
    List GoStr → List GoStr × Option BErr
  | [] => ([], none)
  | p :: ps =>
    if env.uploadOk (goPathJoin inst (m p)) then
      (goPathJoin inst (m p) :: (uploadProfilesLoop env inst m ps).1,
        (uploadProfilesLoop env inst m ps).2)
    else ([], some (.uploadFail (goPathJoin inst (m p))))

/-- The generated backup name prefix: `"backup_" + time.Now().Format(...)`. -/
def backupNameOf (env : BackupEnv) : GoStr := lit "backup_" ++ env.timeStr

/-- The profile list `backupProfiles` ends up with: the parsed profiles
when the spinner-wrapped `listProfiles` command succeeded, else the nil
list (the spinner displays the error and the pipeline continues). -/
def effProfiles (env : BackupEnv) : List GoStr :=
  if env.profListOk then env.profiles else []

/-- The instance archive object key `uploadInstanceBackup` puts to. -/
def instanceKeyOf (env : BackupEnv) (inst : GoStr) : GoStr :=
  goPathJoin inst (instanceFileName (backupNameOf env))

/-- Model of the CLI `backupMain` pipeline (backup.go): tags parse,
inverted instance-existence check, backup-name generation, profile
enumeration with the 1000-profile guard, profile and instance export to
staging, then upload of the instance archive followed by the profile
files, in that order.  Failures of the spinner-wrapped export commands
are only displayed (the spinner swallows them), so enumeration failure
yields an empty profile list and an instance-export failure surfaces at
the following `os.Stat`. -/
def backupMainModel (env : BackupEnv) (inst : GoStr) : Option BErr × BTrace :=
  if ¬env.tagsOk then (some .tagsErr, {})
  else
    match checkInstanceModel env.lxcListOk env.lxcListOut inst with
    | none => (some (.noInstanceFound inst), {})
    | some _ =>
      if (effProfiles env).length > 1000 then
        (some .tooManyProfiles, { nameGenerated := true, listedProfiles := true })
      else if ¬env.instStatOk then
        (some .statFail,
          { nameGenerated := true, listedProfiles := true,
            profileExports := effProfiles env, instanceExportRun := true })
      else if ¬env.uploadOk (instanceKeyOf env inst) then
        (some (.uploadFail (instanceKeyOf env inst)),
          { nameGenerated := true, listedProfiles := true,
            profileExports := effProfiles env, instanceExportRun := true, uploads := [] })
      else
        ((uploadProfilesLoop env inst
            (buildPInfoFun (backupNameOf env) 0 (fun _ => []) (effProfiles env))
            (effProfiles env)).2,
          { nameGenerated := true, listedProfiles := true,
            profileExports := effProfiles env, instanceExportRun := true,
            uploads := instanceKeyOf env inst ::
              (uploadProfilesLoop env inst
                (buildPInfoFun (backupNameOf env) 0 (fun _ => []) (effProfiles env))
                (effProfiles env)).1 })

/-- The property claimed by the spec for the upload phase: every profile
object is uploaded before the instance archive object. -/
def profilesUploadedBeforeInstance (instKey : GoStr) (profileKeys uploads : List GoStr) : Prop :=
  ∀ pk ∈ profileKeys, pk ∈ uploads ∧ uploads.indexOf pk < uploads.indexOf instKey

instance (instKey : GoStr) (profileKeys uploads : List GoStr) :
    Decidable (profilesUploadedBeforeInstance instKey profileKeys uploads) := by
  unfold profilesUploadedBeforeInstance; infer_instance

/-- Webhook operation type (notify.go, not under src/). -/
inductive OpType where
  | backup : OpType
  | restore : OpType
deriving DecidableEq

/-- Webhook operation state (notify.go, not under src/). -/
inductive OpState where
  | opStarted : OpState
  | opSuccess : OpState
  | opFailed : OpState
deriving DecidableEq

/-- The notification event as constructed by the handlers (handlers.go). -/
structure EventInfo where
  opType : OpType
  state : OpState
  name : GoStr
  instanceName : GoStr
  errMsg : Option GoStr
deriving DecidableEq

/-- Modelled from the spec: the notification sender (notify.go, absent
from src/) serializes the event's operation type into the webhook JSON
body field `opType` as `"backup"` or `"restore"`. -/
def opTypeField : OpType → GoStr
  | .backup => lit "backup"
  | .restore => lit "restore"

/-- The failure notification constructed by `backupHandler`
(handlers.go lines 571-583) when `performBackup` returns an error:
`eventInfo{OpType: Restore, State: Failed, Name: backup, Instance:
instance, ..., Error: err}`. -/
def backupHandlerFailureEvent (backupName instName errText : GoStr) : EventInfo :=
  { opType := .restore, state := .opFailed, name := backupName,
    instanceName := instName, errMsg := some errText }

/-- The success notification constructed by `performBackup`
(handlers.go lines 411-419). -/
def performBackupSuccessEvent (backupName instName : GoStr) : EventInfo :=
  { opType := .backup, state := .opSuccess, name := backupName,
    instanceName := instName, errMsg := none }

/-- In-flight tracker entry (`backupReader` in handlers.go). -/
structure RdState where
  started : Bool
  size : Int
  progress : Int
deriving DecidableEq

/-- Stored object metadata as returned by stat plus tagging. -/
structure StoredMeta where
  size : Int
  lastModified : GoStr
  userMetadata : List (GoStr × GoStr)
  tags : List (GoStr × GoStr)
deriving DecidableEq

/-- Go map lookup with the zero value for missing keys. -/
def metaLookup (m : List (GoStr × GoStr)) (k : GoStr) : GoStr :=
  ((m.find? fun e => e.1 = k).map Prod.snd).getD []

/-- The three response shapes of `infoHandler` (handlers.go). -/
inductive InfoResp where
  | inflight (name : GoStr) (size : Int) (stateStr : GoStr) (progress : Int) : InfoResp
  | stored (name : GoStr) (created : GoStr) (size : Int)
      (optimized compressed : Bool) (tags : List (GoStr × GoStr)) : InfoResp
  | errResp (msg : GoStr) : InfoResp
deriving DecidableEq

/-- Model of `infoHandler` (handlers.go lines 668-709): an in-flight
tracker entry yields state `"generating"`, or `"uploading"` once started
with positive progress; otherwise the response is derived from object
tagging and stat, an error when the object does not exist. -/
def infoHandlerModel (b : GoStr) (entry : Option RdState) (stor : Option StoredMeta) : InfoResp :=
  match entry with
  | some rd =>
    .inflight b rd.size
      (if rd.started && rd.progress > 0 then lit "uploading" else lit "generating") rd.progress
  | none =>
    match stor with
    | some m =>
      .stored b m.lastModified m.size
        (metaLookup m.userMetadata (lit "Optimized") = lit "true")
        (metaLookup m.userMetadata (lit "Compressed") = lit "true") m.tags
    | none => .errResp (lit "The specified key does not exist.")

/-- Operations on the in-flight tracker map (`backupState` in handlers.go). -/
inductive TrkOp where
  | store (name : GoStr) (rd : RdState) : TrkOp
  | pop (name : GoStr) : TrkOp
deriving DecidableEq

/-- External world of one `performBackup` run. -/
structure PBEnv where
  exportOk : Bool
  openOk : Bool
  statOk : Bool
  putOk : Bool
  fileSize : Int

/-- The tracker operations performed by `performBackup` (handlers.go
lines 358-422), in order, with the run's success flag: the entry (with
`Started: true`) is stored before the export runs, stored again with the
size once the staged file is statted, and removed by the deferred `Pop`
on every exit path. -/
def performBackupOps (b : GoStr) (env : PBEnv) : List TrkOp × Bool :=
  if ¬env.exportOk then ([.store b ⟨true, 0, 0⟩, .pop b], false)
  else if ¬env.openOk then ([.store b ⟨true, 0, 0⟩, .pop b], false)
  else if ¬env.statOk then ([.store b ⟨true, 0, 0⟩, .pop b], false)
  else ([.store b ⟨true, 0, 0⟩, .store b ⟨true, env.fileSize, 0⟩, .pop b], env.putOk)

/-- Apply one tracker operation to the name-to-entry map. -/
def applyTrkOp (m : List (GoStr × RdState)) : TrkOp → List (GoStr × RdState)
  | .store n rd => (n, rd) :: m.filter fun e => ¬e.1 = n
  | .pop n => m.filter fun e => ¬e.1 = n

/-- Apply a sequence of tracker operations. -/
def applyTrkOps (m : List (GoStr × RdState)) (ops : List TrkOp) : List (GoStr × RdState) :=
  ops.foldl applyTrkOp m

/-- Tracker lookup (`backupState.Get`). -/
def trkGet (m : List (GoStr × RdState)) (n : GoStr) : Option RdState :=
  (m.find? fun e => e.1 = n).map Prod.snd

/-- An item received from the delete listing channel. -/
inductive DLItem where
  | obj (key versionID : GoStr) : DLItem
  | derr (code : GoStr) : DLItem
deriving DecidableEq

/-- One performed `RemoveObject` call: key and the version ID set in the
options at that point (empty for a current-version delete). -/
structure DelOp where
  key : GoStr
  versionID : GoStr
deriving DecidableEq

/-- The loop of `listAndDelete` (the adapter in the sources): consume the
versioned listing; on a `"NotImplemented"` in-stream error, switch the
`isVersioned` flag off and keep iterating.  Per Go semantics the
`for obj := range resCh` statement keeps consuming the channel evaluated
at loop entry even though `resCh` is reassigned to a fresh non-versioned
listing, so the new listing is never received from and the loop simply
continues on the remainder of the original stream.  `curVid` models the
`opts.VersionID` field, which persists across iterations and is only
overwritten while the versioned flag is on. -/
def listAndDeleteLoop (removeOk : GoStr → Bool) (isVersioned : Bool) (curVid : GoStr)
    (acc : List DelOp) : List DLItem → List DelOp × Option GoStr
  | [] => (acc, none)
  | .derr code :: rest =>
    if code = lit "NotImplemented" then listAndDeleteLoop removeOk false curVid acc rest
    else (acc, some code)
  | .obj k v :: rest =>
    if removeOk k then
      listAndDeleteLoop removeOk isVersioned (if isVersioned then v else curVid)
        (acc ++ [⟨k, if isVersioned then v else curVid⟩]) rest
    else (acc, some (lit "remove failed"))

/-- Model of `listAndDelete`: start on the versioned listing stream with
an empty `opts.VersionID`. -/
def listAndDeleteModel (removeOk : GoStr → Bool) (stream : List DLItem) :
    List DelOp × Option GoStr :=
  listAndDeleteLoop removeOk true [] [] stream

/-! ### String lemmas -/

theorem goHasPfx_nil (s : GoStr) : goHasPfx s [] = true := by
  cases s <;> rfl

theorem goHasPfx_append (a b : GoStr) : goHasPfx (a ++ b) a = true := by
  induction a with
  | nil => exact goHasPfx_nil b
  | cons c a ih => simp [goHasPfx, ih]

theorem goHasPfx_extend {s p : GoStr} (t : GoStr) (h : goHasPfx s p = true) :
    goHasPfx (s ++ t) p = true := by
  induction p generalizing s with
  | nil => exact goHasPfx_nil _
  | cons d p ih =>
    cases s with
    | nil => simp [goHasPfx] at h
    | cons c s =>
      simp only [goHasPfx, Bool.and_eq_true, decide_eq_true_eq] at h
      simp [goHasPfx, h.1, ih h.2]

theorem goTrimPfx_append (a b : GoStr) : goTrimPfx (a ++ b) a = b := by
  simp [goTrimPfx, goHasPfx_append, List.drop_left]

theorem goHasSfx_append (a b : GoStr) : goHasSfx (a ++ b) b = true := by
  simp only [goHasSfx, List.reverse_append]
  exact goHasPfx_append b.reverse a.reverse

theorem goHasSfx_extend {f suf : GoStr} (x : GoStr) (h : goHasSfx f suf = true) :
    goHasSfx (x ++ f) suf = true := by
  simp only [goHasSfx, List.reverse_append] at h ⊢
  exact goHasPfx_extend x.reverse h

theorem goTrimSfx_append (a b : GoStr) : goTrimSfx (a ++ b) b = a := by
  simp only [goTrimSfx, goHasSfx_append, if_true, List.length_append,
    Nat.add_sub_cancel]
  exact List.take_left a b

theorem takeWhile_append_stop {p : Char → Bool} {xs : GoStr} (y : Char) (ys : GoStr)
    (hxs : ∀ c ∈ xs, p c = true) (hy : p y = false) :
    (xs ++ y :: ys).takeWhile p = xs := by
  induction xs with
  | nil => simp [List.takeWhile_cons, hy]
  | cons c cs ih =>
    have hc : p c = true := hxs c (by simp)
    simp only [List.cons_append, List.takeWhile_cons, hc, if_true]
    rw [ih fun d hd => hxs d (by simp [hd])]

theorem takeWhile_all {p : Char → Bool} {xs : GoStr} (hxs : ∀ c ∈ xs, p c = true) :
    xs.takeWhile p = xs := by
  induction xs with
  | nil => rfl
  | cons c cs ih =>
    have hc : p c = true := hxs c (by simp)
    simp only [List.takeWhile_cons, hc, if_true]
    rw [ih fun d hd => hxs d (by simp [hd])]

theorem goPathBase_stem {stem f : GoStr} (hstem : goodStem stem) (hne : f ≠ [])
    (hsl : '/' ∉ f) : goPathBase (stem ++ f) = f := by
  have hrevne : f.reverse ≠ [] := by simpa using hne
  obtain ⟨c, cs, hf⟩ := List.exists_cons_of_ne_nil hrevne
  have hcmem : c ∈ f := by
    have : c ∈ f.reverse := by rw [hf]; simp
    simpa using this
  have hcne : c ≠ '/' := fun h => hsl (h ▸ hcmem)
  have hnil : stem ++ f ≠ [] := fun h => hne (List.append_eq_nil.mp h).2
  have hrev : (stem ++ f).reverse = c :: (cs ++ stem.reverse) := by
    rw [List.reverse_append, hf]; simp
  have hdrop : (stem ++ f).reverse.dropWhile (· = '/') = c :: (cs ++ stem.reverse) := by
    rw [hrev, List.dropWhile_cons, if_neg (by simp [hcne])]
  have hall : ∀ d ∈ f.reverse, (decide (d ≠ '/')) = true := by
    intro d hd
    simp only [ne_eq, decide_eq_true_eq]
    intro hdslash
    exact hsl (hdslash ▸ List.mem_reverse.mp hd)
  rw [goPathBase, if_neg hnil, hdrop, if_neg (by exact List.cons_ne_nil _ _)]
  rcases hstem with h0 | ⟨t, ht⟩
  · subst h0
    have hcc : c :: (cs ++ ([] : GoStr).reverse) = f.reverse := by rw [hf]; simp
    rw [hcc, takeWhile_all hall, List.reverse_reverse]
  · subst ht
    have hcc : c :: (cs ++ (t ++ ['/']).reverse) = f.reverse ++ '/' :: t.reverse := by
      rw [hf]; simp
    rw [hcc, takeWhile_append_stop '/' t.reverse hall (by simp), List.reverse_reverse]

/-! ### Lexicographic order lemmas -/

theorem leStr_append_same (a s t : GoStr) : leStr (a ++ s) (a ++ t) = leStr s t := by
  induction a with
  | nil => rfl
  | cons c a ih => simp [leStr, ih]

theorem leStr_append_of_lt {s t : GoStr} (u v : GoStr) (hlen : s.length = t.length)
    (hle : leStr s t = true) (hne : s ≠ t) : leStr (s ++ u) (t ++ v) = true := by
  induction s generalizing t with
  | nil =>
    cases t with
    | nil => exact absurd rfl hne
    | cons d t => simp at hlen
  | cons c s ih =>
    cases t with
    | nil => simp at hlen
    | cons d t =>
      by_cases hcd : c = d
      · subst hcd
        simp only [leStr, if_true] at hle
        have hne' : s ≠ t := fun h => hne (h ▸ rfl)
        simp only [List.cons_append, leStr, if_pos rfl]
        exact ih (by simpa using hlen) hle hne'
      · simp only [leStr, if_neg hcd] at hle
        simp only [List.cons_append, leStr, if_neg hcd]
        exact hle

/-! ### Path cleaning lemmas -/

theorem splitSlash_ne_nil (s : GoStr) : splitSlash s ≠ [] := by
  cases s with
  | nil => simp [splitSlash]
  | cons c rest =>
    by_cases h : c = '/'
    · simp [splitSlash, h]
    · simp only [splitSlash, if_neg h]
      cases splitSlash rest <;> simp

theorem splitSlash_cons_ne {c : Char} {rest : GoStr} (h : c ≠ '/') {s : GoStr}
    {ss : List GoStr} (hss : splitSlash rest = s :: ss) :
    splitSlash (c :: rest) = (c :: s) :: ss := by
  simp only [splitSlash, if_neg h, hss]

theorem splitSlash_append (x y : GoStr) :
    splitSlash (x ++ '/' :: y) = splitSlash x ++ splitSlash y := by
  induction x with
  | nil => simp [splitSlash]
  | cons c x ih =>
    by_cases h : c = '/'
    · simp [splitSlash, h, ih]
    · obtain ⟨s, ss, hss⟩ := List.exists_cons_of_ne_nil (splitSlash_ne_nil x)
      have h2 : splitSlash (x ++ '/' :: y) = s :: (ss ++ splitSlash y) := by
        rw [ih, hss, List.cons_append]
      calc splitSlash (c :: x ++ '/' :: y)
          = splitSlash (c :: (x ++ '/' :: y)) := by rw [List.cons_append]
        _ = (c :: s) :: (ss ++ splitSlash y) := splitSlash_cons_ne h h2
        _ = ((c :: s) :: ss) ++ splitSlash y := by rw [List.cons_append]
        _ = splitSlash (c :: x) ++ splitSlash y := by rw [splitSlash_cons_ne h hss]

theorem splitSlash_noslash {f : GoStr} (h : '/' ∉ f) : splitSlash f = [f] := by
  induction f with
  | nil => rfl
  | cons c f ih =>
    have hc : c ≠ '/' := fun hc => h (by simp [hc])
    have hf : '/' ∉ f := fun hf => h (by simp [hf])
    simp only [splitSlash, if_neg hc, ih hf]

theorem joinSlash_cons_cons (s s2 : GoStr) (st : List GoStr) :
    joinSlash (s :: s2 :: st) = s ++ '/' :: joinSlash (s2 :: st) := rfl

theorem joinSlash_append_single (st : List GoStr) (f : GoStr) :
    joinSlash (st ++ [f]) = if st = [] then f else joinSlash st ++ '/' :: f := by
  induction st with
  | nil => simp [joinSlash]
  | cons s st ih =>
    cases st with
    | nil => simp [joinSlash]
    | cons s2 st2 =>
      have hx : (s :: s2 :: st2) ++ [f] = s :: ((s2 :: st2) ++ [f]) := rfl
      rw [hx]
      have hy : (s2 :: st2) ++ [f] = s2 :: (st2 ++ [f]) := rfl
      rw [hy, joinSlash_cons_cons, ← hy, ih]
      rw [if_neg (by simp), if_neg (by simp), joinSlash_cons_cons]
      simp [List.append_assoc]

theorem cleanStep_normal (rooted : Bool) (acc : List GoStr) {f : GoStr}
    (hf : normalSeg f) : cleanStep rooted acc f = acc ++ [f] := by
  obtain ⟨h1, _, h3, h4⟩ := hf
  rw [cleanStep, if_neg (by simp [h1, h3]), if_neg h4]

theorem stemOf_good (i : GoStr) : goodStem (stemOf i) := by
  rw [stemOf]
  by_cases h : i = []
  · simp [h, goodStem]
  · rw [if_neg h]
    set b := decide (i.head? = some '/') with hb
    by_cases hst : cleanStack b i = []
    · rw [if_pos hst]
      cases b
      · exact Or.inl (by simp)
      · exact Or.inr ⟨[], by simp⟩
    · rw [if_neg hst]
      cases b
      · exact Or.inr ⟨joinSlash (cleanStack false i), by simp⟩
      · exact Or.inr ⟨'/' :: joinSlash (cleanStack true i), by simp⟩

theorem goPathClean_single {f : GoStr} (hf : normalSeg f) (hsl : '/' ∉ f) :
    goPathClean f = f := by
  have h1 := hf.1
  obtain ⟨c, cs, hc⟩ := List.exists_cons_of_ne_nil h1
  have hr : ¬(f.head? = some '/') := by
    rw [hc]
    simp only [List.head?_cons, Option.some.injEq]
    intro h
    exact hsl (by rw [hc, h]; simp)
  have hrb : decide (f.head? = some '/') = false := by simp [hr]
  rw [goPathClean, if_neg h1, hrb, splitSlash_noslash hsl]
  simp only [List.foldl_cons, List.foldl_nil, cleanStep_normal _ _ hf, List.nil_append]
  rw [renderClean, if_neg (by simp)]
  have hj : joinSlash [f] = f := rfl
  rw [hj, if_neg h1]

theorem renderClean_stack_single (b : Bool) (st : List GoStr) {f : GoStr} (hne : f ≠ []) :
    renderClean b (st ++ [f]) =
      ((if b then ['/'] else []) ++
        (if st = [] then [] else joinSlash st ++ ['/'])) ++ f := by
  cases b with
  | false =>
    rw [renderClean, if_neg (by simp), joinSlash_append_single]
    by_cases hst : st = []
    · rw [if_pos hst, if_pos hst, if_neg hne]
      simp
    · rw [if_neg hst, if_neg hst, if_neg (by simp)]
      simp [List.append_assoc]
  | true =>
    rw [renderClean, if_pos rfl, joinSlash_append_single]
    by_cases hst : st = []
    · rw [if_pos hst, if_pos hst]
      simp
    · rw [if_neg hst, if_neg hst]
      simp [List.append_assoc]

theorem goPathJoin_factor (i : GoStr) {f : GoStr} (hf : normalSeg f) (hsl : '/' ∉ f) :
    goPathJoin i f = stemOf i ++ f := by
  by_cases hi : i = []
  · subst hi
    rw [goPathJoin, if_neg (by simp [hf.1]), if_pos rfl, goPathClean_single hf hsl]
    simp [stemOf]
  · rw [goPathJoin, if_neg (by simp [hi]), if_neg hi]
    obtain ⟨c, cs, hc⟩ := List.exists_cons_of_ne_nil hi
    have hne : i ++ '/' :: f ≠ [] := by simp [hc]
    have hheadEq : (i ++ '/' :: f).head? = i.head? := by rw [hc]; simp
    have hsplit : splitSlash (i ++ '/' :: f) = splitSlash i ++ [f] := by
      rw [splitSlash_append, splitSlash_noslash hsl]
    rw [goPathClean, if_neg hne, hheadEq, hsplit, List.foldl_append]
    have hlast : ∀ st : List GoStr,
        List.foldl (cleanStep (decide (i.head? = some '/'))) st [f] = st ++ [f] := by
      intro st
      simp only [List.foldl_cons, List.foldl_nil, cleanStep_normal _ _ hf]
    rw [hlast, renderClean_stack_single _ _ hf.1, stemOf, if_neg hi]
    rfl

/-! ### Decimal formatting lemmas -/

theorem natDigitsFuel_small {m fuel : Nat} (h : m < 10) (hf : 0 < fuel) :
    natDigitsFuel fuel m = [digitChar m] := by
  cases fuel with
  | zero => omega
  | succ f => simp [natDigitsFuel, h]

theorem natDigitsFuel_two {m fuel : Nat} (h1 : 10 ≤ m) (h2 : m < 100) (hf : 2 ≤ fuel) :
    natDigitsFuel fuel m = [digitChar (m / 10), digitChar (m % 10)] := by
  cases fuel with
  | zero => omega
  | succ f =>
    rw [natDigitsFuel, if_neg (by omega)]
    rw [natDigitsFuel_small (by omega) (by omega)]
    rfl

theorem fmt3_digits {n : Nat} (h : n ≤ 999) :
    fmt3 n = [digitChar (n / 100), digitChar (n / 10 % 10), digitChar (n % 10)] := by
  by_cases h1 : n < 10
  · have hd : natDigits n = [digitChar n] := natDigitsFuel_small h1 (by omega)
    rw [fmt3, hd]
    have e1 : n / 100 = 0 := by omega
    have e2 : n / 10 = 0 := by omega
    have e3 : n % 10 = n := by omega
    rw [e1, e2, e3]
    rfl
  · by_cases h2 : n < 100
    · have hd : natDigits n = [digitChar (n / 10), digitChar (n % 10)] :=
        natDigitsFuel_two (by omega) h2 (by omega)
      rw [fmt3, hd]
      have e1 : n / 100 = 0 := by omega
      have e2 : n / 10 % 10 = n / 10 := by
        have : n / 10 < 10 := by omega
        omega
      rw [e1, e2]
      rfl
    · have hq1 : 10 ≤ n / 10 := by omega
      have hq2 : n / 10 < 100 := by omega
      have hd : natDigits n =
          [digitChar (n / 10 / 10), digitChar (n / 10 % 10), digitChar (n % 10)] := by
        rw [natDigits, natDigitsFuel, if_neg (by omega)]
        rw [natDigitsFuel_two hq1 hq2 (by omega)]
        rfl
      rw [fmt3, hd, Nat.div_div_eq_div_mul]
      rfl

theorem fmt3_length {n : Nat} (h : n ≤ 999) : (fmt3 n).length = 3 := by
  rw [fmt3_digits h]
  rfl

theorem digitChar_lt_iff : ∀ a, a < 10 → ∀ b, b < 10 →
    ((digitChar a < digitChar b) ↔ a < b) := by decide

theorem digitChar_inj_iff : ∀ a, a < 10 → ∀ b, b < 10 →
    ((digitChar a = digitChar b) ↔ a = b) := by decide

theorem digitChar_ne_slash : ∀ a, a < 10 → digitChar a ≠ '/' := by decide

theorem natDigitsFuel_no_slash : ∀ fuel n, '/' ∉ natDigitsFuel fuel n := by
  intro fuel
  induction fuel with
  | zero => intro n; simp [natDigitsFuel]
  | succ f ih =>
    intro n
    by_cases h : n < 10
    · simp only [natDigitsFuel, if_pos h, List.mem_singleton]
      exact fun hc => digitChar_ne_slash n h hc.symm
    · simp only [natDigitsFuel, if_neg h, List.mem_append, List.mem_singleton]
      rintro (hc | hc)
      · exact ih (n / 10) hc
      · exact digitChar_ne_slash (n % 10) (by omega) hc.symm

theorem fmt3_no_slash (n : Nat) : '/' ∉ fmt3 n := by
  rw [fmt3]
  simp only [List.mem_append, List.mem_replicate]
  rintro (⟨-, hc⟩ | hc)
  · exact absurd hc.symm (by decide)
  · exact natDigitsFuel_no_slash _ _ hc

theorem fmt3_mono {n m : Nat} (hnm : n < m) (hm : m ≤ 999) :
    leStr (fmt3 n) (fmt3 m) = true ∧ fmt3 n ≠ fmt3 m := by
  have hn : n ≤ 999 := by omega
  have b1 : n / 100 < 10 := by omega
  have b2 : n / 10 % 10 < 10 := by omega
  have b3 : n % 10 < 10 := by omega
  have c1 : m / 100 < 10 := by omega
  have c2 : m / 10 % 10 < 10 := by omega
  have c3 : m % 10 < 10 := by omega
  have htriple : n / 100 < m / 100 ∨
      (n / 100 = m / 100 ∧ (n / 10 % 10 < m / 10 % 10 ∨
        (n / 10 % 10 = m / 10 % 10 ∧ n % 10 < m % 10))) := by
    omega
  rw [fmt3_digits hn, fmt3_digits hm]
  rcases htriple with h | ⟨e1, h⟩
  · have hne : digitChar (n / 100) ≠ digitChar (m / 100) := by
      intro hc
      exact absurd ((digitChar_inj_iff _ b1 _ c1).mp hc) (by omega)
    have hlt : decide (digitChar (n / 100) < digitChar (m / 100)) = true := by
      simp only [decide_eq_true_eq]
      exact (digitChar_lt_iff _ b1 _ c1).mpr h
    constructor
    · simp only [leStr, if_neg hne, hlt]
    · intro hc
      exact hne ((List.cons.injEq ..).mp hc).1
  · have he1 : digitChar (n / 100) = digitChar (m / 100) := by rw [e1]
    rcases h with h | ⟨e2, h⟩
    · have hne : digitChar (n / 10 % 10) ≠ digitChar (m / 10 % 10) := by
        intro hc
        exact absurd ((digitChar_inj_iff _ b2 _ c2).mp hc) (by omega)
      have hlt : decide (digitChar (n / 10 % 10) < digitChar (m / 10 % 10)) = true := by
        simp only [decide_eq_true_eq]
        exact (digitChar_lt_iff _ b2 _ c2).mpr h
      constructor
      · simp only [leStr, if_pos he1, if_neg hne, hlt]
      · intro hc
        have := (List.cons.injEq ..).mp hc
        exact hne ((List.cons.injEq ..).mp this.2).1
    · have he2 : digitChar (n / 10 % 10) = digitChar (m / 10 % 10) := by rw [e2]
      have hne : digitChar (n % 10) ≠ digitChar (m % 10) := by
        intro hc
        exact absurd ((digitChar_inj_iff _ b3 _ c3).mp hc) (by omega)
      have hlt : decide (digitChar (n % 10) < digitChar (m % 10)) = true := by
        simp only [decide_eq_true_eq]
        exact (digitChar_lt_iff _ b3 _ c3).mpr h
      constructor
      · simp only [leStr, if_pos he1, if_pos he2, if_neg hne, hlt]
      · intro hc
        have h1 := (List.cons.injEq ..).mp hc
        have h2 := (List.cons.injEq ..).mp h1.2
        have h3 := (List.cons.injEq ..).mp h2.2
        exact hne h3.1

/-! ### Key scheme lemmas -/

theorem profileFileName_eq (b : GoStr) (k : Nat) (p : GoStr) :
    profileFileName b k p = expectedProfilePfx b k ++ (p ++ lit ".yaml") := by
  simp [profileFileName, expectedProfilePfx, List.append_assoc]

theorem profileFileName_no_slash {b p : GoStr} (hb : '/' ∉ b) (hp : '/' ∉ p) (k : Nat) :
    '/' ∉ profileFileName b k p := by
  intro hmem
  simp only [profileFileName, List.mem_append, List.mem_cons] at hmem
  rcases hmem with (((hc | hc) | hc) | hc | hc) | hc
  · exact hb hc
  · exact absurd hc (by decide)
  · exact fmt3_no_slash k hc
  · exact absurd hc (by decide)
  · exact hp hc
  · exact absurd hc (by decide)

theorem profileFileName_length (b : GoStr) (k : Nat) (p : GoStr) :
    5 ≤ (profileFileName b k p).length := by
  simp only [profileFileName, List.append_assoc, List.length_append, List.length_cons]
  have : (lit ".yaml").length = 5 := by decide
  omega

theorem profileFileName_normal {b p : GoStr} (hb : '/' ∉ b) (hp : '/' ∉ p) (k : Nat) :
    normalSeg (profileFileName b k p) := by
  have h5 := profileFileName_length b k p
  refine ⟨?_, profileFileName_no_slash hb hp k, ?_, ?_⟩
  · intro hcon
    rw [hcon] at h5
    simp at h5
  · intro hcon
    rw [hcon] at h5
    simp at h5
  · intro hcon
    rw [hcon] at h5
    simp at h5

theorem key_reassoc (inst b : GoStr) (k : Nat) (p : GoStr) :
    stemOf inst ++ profileFileName b k p =
      (stemOf inst ++ (b ++ lit "_profile_")) ++
        (fmt3 k ++ ('_' :: (p ++ lit ".yaml"))) := by
  simp [profileFileName, List.append_assoc]

theorem key_lt (inst : GoStr) {b p q : GoStr} (hb : '/' ∉ b)
    (hpsl : '/' ∉ p) (hqsl : '/' ∉ q)
    {n m : Nat} (hnm : n < m) (hm : m ≤ 999) :
    leStr (goPathJoin inst (profileFileName b n p))
      (goPathJoin inst (profileFileName b m q)) = true := by
  rw [goPathJoin_factor inst (profileFileName_normal hb hpsl n)
      (profileFileName_no_slash hb hpsl n),
    goPathJoin_factor inst (profileFileName_normal hb hqsl m)
      (profileFileName_no_slash hb hqsl m),
    key_reassoc, key_reassoc, leStr_append_same]
  have hmono := fmt3_mono hnm hm
  exact leStr_append_of_lt _ _ (by rw [fmt3_length (by omega), fmt3_length hm])
    hmono.1 hmono.2

theorem mem_genKeysFrom {inst b : GoStr} {ps : List GoStr} {k : Nat} {y : GoStr}
    (h : y ∈ genKeysFrom inst b k ps) :
    ∃ m p, k ≤ m ∧ m < k + ps.length ∧ p ∈ ps ∧
      y = goPathJoin inst (profileFileName b m p) := by
  induction ps generalizing k with
  | nil => simp [genKeysFrom] at h
  | cons p ps ih =>
    rcases List.mem_cons.mp h with h | h
    · exact ⟨k, p, le_refl k, by simp, by simp, h⟩
    · obtain ⟨m, q, h1, h2, h3, h4⟩ := ih h
      exact ⟨m, q, by omega, by simp; omega, by simp [h3], h4⟩

theorem genKeysFrom_sorted (inst : GoStr) {b : GoStr} {ps : List GoStr} (k : Nat)
    (hb : '/' ∉ b) (hps : ∀ p ∈ ps, p ≠ [] ∧ '/' ∉ p)
    (hlen : k + ps.length ≤ 1000) :
    List.Pairwise (fun a c => leStr a c = true) (genKeysFrom inst b k ps) := by
  induction ps generalizing k with
  | nil => exact List.Pairwise.nil
  | cons p ps ih =>
    rw [genKeysFrom]
    refine List.Pairwise.cons ?_ (ih (k + 1) (fun q hq => hps q (by simp [hq])) (by
      simp only [List.length_cons] at hlen; omega))
    intro y hy
    obtain ⟨m, q, h1, h2, h3, h4⟩ := mem_genKeysFrom hy
    have hp := hps p (by simp)
    have hq := hps q (by simp [h3])
    subst h4
    have hmle : m ≤ 999 := by
      simp only [List.length_cons] at hlen
      omega
    exact key_lt inst hb hp.2 hq.2 (by omega) hmle

theorem sortKeys_of_sorted {l : List GoStr}
    (h : List.Pairwise (fun a c => leStr a c = true) l) : sortKeys l = l := by
  induction l with
  | nil => rfl
  | cons x xs ih =>
    obtain ⟨hall, htail⟩ := List.pairwise_cons.mp h
    rw [sortKeys, ih htail]
    cases xs with
    | nil => rfl
    | cons y ys =>
      rw [insertKey, if_pos (hall y (by simp))]

theorem parse_key (inst : GoStr) {b p : GoStr} (k : Nat) (hb : '/' ∉ b)
    (hpne : p ≠ []) (hpsl : '/' ∉ p) :
    validProfileKey b k (goPathJoin inst (profileFileName b k p)) = true ∧
      parsedProfileName b k (goPathJoin inst (profileFileName b k p)) = p := by
  rw [goPathJoin_factor inst (profileFileName_normal hb hpsl k)
      (profileFileName_no_slash hb hpsl k)]
  have hbase : goPathBase (stemOf inst ++ profileFileName b k p) = profileFileName b k p :=
    goPathBase_stem (stemOf_good inst) (profileFileName_normal hb hpsl k).1
      (profileFileName_no_slash hb hpsl k)
  have hsfx : goHasSfx (stemOf inst ++ profileFileName b k p) (lit ".yaml") = true := by
    refine goHasSfx_extend _ ?_
    rw [profileFileName_eq]
    have : expectedProfilePfx b k ++ (p ++ lit ".yaml") =
        (expectedProfilePfx b k ++ p) ++ lit ".yaml" := by
      simp [List.append_assoc]
    rw [this]
    exact goHasSfx_append _ _
  have htrim : parsedProfileName b k (stemOf inst ++ profileFileName b k p) = p := by
    rw [parsedProfileName, hbase, profileFileName_eq]
    have : expectedProfilePfx b k ++ (p ++ lit ".yaml") =
        (expectedProfilePfx b k ++ p) ++ lit ".yaml" := by
      simp [List.append_assoc]
    rw [this, goTrimSfx_append, goTrimPfx_append]
  refine ⟨?_, htrim⟩
  rw [validProfileKey, hbase, htrim, profileFileName_eq]
  rw [profileFileName_eq] at hsfx
  simp [goHasPfx_append, hsfx, hpne]

theorem parse_gen (inst : GoStr) {b : GoStr} {ps : List GoStr} (k : Nat)
    (hb : '/' ∉ b) (hps : ∀ p ∈ ps, p ≠ [] ∧ '/' ∉ p) :
    parseKeysFrom b k (genKeysFrom inst b k ps) = some ps := by
  induction ps generalizing k with
  | nil => rfl
  | cons p ps ih =>
    have hp := hps p (by simp)
    have hk := parse_key inst k hb hp.1 hp.2
    rw [genKeysFrom, parseKeysFrom, if_pos hk.1, hk.2,
      ih (k + 1) (fun q hq => hps q (by simp [hq]))]
    rfl

/-- Claim C1 (amended): for every instance name, every backup name free of
the path separator, and every ordered list of at most 1000 non-empty
profile names free of the path separator, generating the profile object
keys and parsing the lexicographically ordered key listing back yields
exactly the original ordered profile name list (and validates the same
backup name at every position). -/
theorem c1_key_roundtrip (inst b : GoStr) (ps : List GoStr)
    (hb : '/' ∉ b) (hps : ∀ p ∈ ps, p ≠ [] ∧ '/' ∉ p) (hlen : ps.length ≤ 1000) :
    parseProfileKeyList b (sortKeys (backupProfileKeys inst b ps)) = some ps := by
  rw [backupProfileKeys, parseProfileKeyList,
    sortKeys_of_sorted (genKeysFrom_sorted inst 0 hb hps (by omega)),
    parse_gen inst 0 hb hps]

/-- Claim C1 witness: backing up instance `u2` under name `backup_X` with
profiles `base, net` round-trips through the sorted key listing. -/
theorem c1_key_roundtrip_witness :
    parseProfileKeyList (lit "backup_X")
      (sortKeys (backupProfileKeys (lit "u2") (lit "backup_X")
        [lit "base", lit "net"])) = some [lit "base", lit "net"] :=
  c1_key_roundtrip (lit "u2") (lit "backup_X") [lit "base", lit "net"]
    (by decide) (by decide) (by decide)

/-- Claim C1 counterexample: for instance `i`, backup name `b` and the
single non-empty profile name `x/y` (length 1 ≤ 1000), the round trip
fails — the generated key `i/b_profile_000_x/y.yaml` has base name
`y.yaml`, which the parser rejects — so the claim as stated over all
non-empty profile names is false. -/
theorem c1_counterexample :
    ¬(parseProfileKeyList (lit "b")
      (sortKeys (backupProfileKeys (lit "i") (lit "b") [lit "x/y"])) =
        some [lit "x/y"]) := by decide

/-! ### Restore-info collection (C2) -/

theorem collectLoop_error {b : GoStr} (n : Nat) :
    ∀ (items : List LItem) (pno : Nat) (acc : RestoreInfoM) (o : ObjInfo),
      (∀ m, m < n → ∃ o2, items.get? m = some (.obj o2) ∧
        validProfileKey b (pno + m) o2.key = true) →
      items.get? n = some (.obj o) →
      validProfileKey b (pno + n) o.key = false →
      collectLoop b pno acc items = .error (.malformed o.key) := by
  induction n with
  | zero =>
    intro items pno acc o hpre hbad hinv
    cases items with
    | nil => simp at hbad
    | cons it rest =>
      simp only [List.get?_cons_zero, Option.some.injEq] at hbad
      subst hbad
      rw [Nat.add_zero] at hinv
      simp [collectLoop, hinv]
  | succ n ih =>
    intro items pno acc o hpre hbad hinv
    cases items with
    | nil => simp at hbad
    | cons it rest =>
      obtain ⟨o2, h0, hv0⟩ := hpre 0 (Nat.succ_pos n)
      simp only [List.get?_cons_zero, Option.some.injEq] at h0
      subst h0
      have hv0' : validProfileKey b pno o2.key = true := by simpa using hv0
      simp only [collectLoop, hv0', if_true]
      refine ih rest (pno + 1) _ o ?_ (by simpa using hbad) ?_
      · intro m hm
        obtain ⟨o3, hg, hv⟩ := hpre (m + 1) (by omega)
        refine ⟨o3, by simpa using hg, ?_⟩
        have harith : pno + 1 + m = pno + (m + 1) := by omega
        rw [harith]
        exact hv
      · have harith : pno + 1 + n = pno + (n + 1) := by omega
        rw [harith]
        exact hinv

/-- Claim C2: during restore-info collection, an object key that is not
valid for its zero-based listing position (wrong prefix, wrong suffix or
empty remaining name, provided all earlier positions were valid) makes the
restore fail with the `Unexpected profile file found` error before any
download and before any destructive step on the target: the default trace
fields record zero downloads, zero created profiles and no import. -/
theorem c2_malformed_key_fatal (env : RestoreEnv) (inst b : GoStr) (n : Nat) (o : ObjInfo)
    (hchk : checkInstanceModel env.lxcListOk env.lxcListOut inst = none)
    (hpre : ∀ m, m < n → ∃ o2, env.listing.get? m = some (.obj o2) ∧
      validProfileKey b m o2.key = true)
    (hbad : env.listing.get? n = some (.obj o))
    (hinv : validProfileKey b n o.key = false) :
    restoreMainModel env inst b = (some (.malformed o.key), { listed := true }) ∧
    rerrMsg (.malformed o.key) = lit "Unexpected profile file found: " ++ o.key ∧
    ({ listed := true } : RTrace).downloads = [] ∧
    ({ listed := true } : RTrace).createdProfiles = [] ∧
    ({ listed := true } : RTrace).importedInstance = false := by
  have hcl : collectLoop b 0 ⟨[], [], 0⟩ env.listing = .error (.malformed o.key) :=
    collectLoop_error n env.listing 0 _ o (by simpa using hpre) hbad (by simpa using hinv)
  refine ⟨?_, rfl, rfl, rfl, rfl⟩
  rw [restoreMainModel, hchk, collectBackupInfoModel, hcl]
  rfl

/-- Claim C2 witness: a single listed object `u2/bad.txt` under backup
name `backup_X` aborts the restore with the malformed-backup error and an
empty effect trace. -/
theorem c2_malformed_key_fatal_witness :
    restoreMainModel
      { lxcListOk := true, lxcListOut := [], listing := [.obj ⟨lit "u2/bad.txt", 1⟩],
        statOk := true, statSize := 0, downloadOk := fun _ => true, profListOk := true,
        existingProfiles := [], createOk := fun _ => true, openOk := fun _ => true,
        editOk := fun _ => true, importOk := true, startOk := true } (lit "u2")
      (lit "backup_X") =
      (some (.malformed (lit "u2/bad.txt")), { listed := true }) :=
  (c2_malformed_key_fatal
    { lxcListOk := true, lxcListOut := [], listing := [.obj ⟨lit "u2/bad.txt", 1⟩],
      statOk := true, statSize := 0, downloadOk := fun _ => true, profListOk := true,
      existingProfiles := [], createOk := fun _ => true, openOk := fun _ => true,
      editOk := fun _ => true, importOk := true, startOk := true }
    (lit "u2") (lit "backup_X") 0 ⟨lit "u2/bad.txt", 1⟩
    (by decide) (fun m hm => absurd hm (by omega)) rfl (by decide)).1

/-! ### Notification on backup failure (C3) -/

/-- Claim C3 (code bug): the failure notification that `backupHandler`
builds for a failed asynchronous backup carries operation type
`"restore"`, not `"backup"`, while it does carry the triggering error and
the failed state; the success notification of the very same operation
uses `Backup`, exhibiting the copy-paste slip. -/
theorem c3_backup_failure_optype (b i e : GoStr) :
    opTypeField (backupHandlerFailureEvent b i e).opType = lit "restore" ∧
    opTypeField (backupHandlerFailureEvent b i e).opType ≠ lit "backup" ∧
    (backupHandlerFailureEvent b i e).state = .opFailed ∧
    (backupHandlerFailureEvent b i e).errMsg = some e ∧
    (performBackupSuccessEvent b i).opType = .backup := by
  refine ⟨rfl, ?_, rfl, rfl, rfl⟩
  intro h
  have hlit : lit "restore" = lit "backup" := h
  exact absurd hlit (by decide)

/-! ### Profile-count guard (C5) -/

/-- Claim C5: a backup request whose profile enumeration reports more
than 1000 profiles fails with the unsupported-configuration error right
after enumeration: the trace records the enumeration but no profile
export, no instance export and no upload. -/
theorem c5_profile_limit_guard (env : BackupEnv) (inst : GoStr)
    (htags : env.tagsOk = true)
    (hchk : checkInstanceModel env.lxcListOk env.lxcListOut inst ≠ none)
    (hprof : env.profListOk = true)
    (hlen : env.profiles.length > 1000) :
    backupMainModel env inst =
      (some .tooManyProfiles, { nameGenerated := true, listedProfiles := true }) ∧
    berrMsg .tooManyProfiles =
      lit "More than a 1000 profiles per instance not supported." ∧
    ({ nameGenerated := true, listedProfiles := true } : BTrace).profileExports = [] ∧
    ({ nameGenerated := true, listedProfiles := true } : BTrace).instanceExportRun = false ∧
    ({ nameGenerated := true, listedProfiles := true } : BTrace).uploads = [] := by
  obtain ⟨e, he⟩ := Option.ne_none_iff_exists'.mp hchk
  have heff : effProfiles env = env.profiles := by rw [effProfiles, if_pos hprof]
  refine ⟨?_, rfl, rfl, rfl, rfl⟩
  rw [backupMainModel, if_neg (by simp [htags]), he, if_pos (by rw [heff]; exact hlen)]

/-- Claim C5 witness: an instance reporting 1001 profiles fails
immediately with the configuration error and performs zero exports. -/
theorem c5_profile_limit_guard_witness :
    backupMainModel
      { tagsOk := true, lxcListOk := true, lxcListOut := lit "u2", profListOk := true,
        profiles := List.replicate 1001 (lit "p"), instStatOk := true,
        uploadOk := fun _ => true, timeStr := lit "T" } (lit "u2") =
      (some .tooManyProfiles, { nameGenerated := true, listedProfiles := true }) :=
  (c5_profile_limit_guard _ (lit "u2") rfl (by decide) rfl
    (by rw [List.length_replicate]; omega)).1

/-! ### Restore pre-flight guard (C6) -/

/-- Claim C6: when the instance listing command succeeds and its trimmed
output equals the restore target name, the restore returns the error
wrapping `instanceExists` with the all-default effect trace: nothing was
listed, statted or downloaded. -/
theorem c6_instance_exists_guard (env : RestoreEnv) (inst b : GoStr)
    (hok : env.lxcListOk = true) (hout : trimSpace env.lxcListOut = inst) :
    restoreMainModel env inst b = (some (.chk (.running inst)), {}) ∧
    wrapsInstanceExists (.running inst) = true ∧
    ({} : RTrace).listed = false ∧ ({} : RTrace).statted = false ∧
    ({} : RTrace).downloads = [] := by
  have hc : checkInstanceModel env.lxcListOk env.lxcListOut inst = some (.running inst) := by
    rw [checkInstanceModel, hok]
    simp [hout]
  refine ⟨?_, rfl, rfl, rfl, rfl⟩
  rw [restoreMainModel, hc]

/-- Claim C6 witness: with listing output `" u2\n"` for target `u2`, the
restore aborts with the instance-exists error and an empty trace. -/
theorem c6_instance_exists_guard_witness :
    restoreMainModel
      { lxcListOk := true, lxcListOut := lit " u2\n", listing := [],
        statOk := true, statSize := 0, downloadOk := fun _ => true, profListOk := true,
        existingProfiles := [], createOk := fun _ => true, openOk := fun _ => true,
        editOk := fun _ => true, importOk := true, startOk := true } (lit "u2")
      (lit "backup_X") = (some (.chk (.running (lit "u2"))), {}) :=
  (c6_instance_exists_guard _ (lit "u2") (lit "backup_X") rfl (by decide)).1

/-! ### Profile collision handling (C8) -/

/-- Claim C8: when the backed-up profile list mixes names that collide
with existing target profiles and names that do not, and the external
profile commands succeed, the restore does not abort: every colliding
profile yields the warning outcome with its staged file removed, and
every other profile is created, fed its staged downloaded file and the
file removed; no outcome is a failure. -/
theorem c8_profile_skip_nonfatal (env : ProfEnv) (existing ps ks : List GoStr)
    (hcreate : ∀ p, env.createOk p = true) (hopen : ∀ f, env.openOk f = true)
    (hedit : ∀ p, env.editOk p = true)
    (_hcol : ∃ p ∈ ps, p ∈ existing) (_hnoncol : ∃ p ∈ ps, p ∉ existing) :
    restoreProfilesModel env existing ps ks =
      (ps.zip ks).map (fun pk =>
        if pk.1 ∈ existing then PResult.warnSkip pk.1 (goPathBase pk.2)
        else PResult.created pk.1 (goPathBase pk.2) (goPathBase pk.2)) ∧
    ∀ r ∈ restoreProfilesModel env existing ps ks,
      isWarnResult r = true ∨ ∃ p f, r = PResult.created p f f := by
  have hpt : ∀ pk ∈ ps.zip ks, restoreProfileModel env existing pk.1 pk.2 =
      if pk.1 ∈ existing then PResult.warnSkip pk.1 (goPathBase pk.2)
      else PResult.created pk.1 (goPathBase pk.2) (goPathBase pk.2) := by
    intro pk _
    by_cases hmem : pk.1 ∈ existing
    · simp [restoreProfileModel, hmem]
    · simp [restoreProfileModel, hmem, hcreate, hopen, hedit]
  constructor
  · rw [restoreProfilesModel]
    exact List.map_congr_left hpt
  · intro r hr
    rw [restoreProfilesModel] at hr
    obtain ⟨pk, hpk, hf⟩ := List.mem_map.mp hr
    rw [hpt pk hpk] at hf
    by_cases hmem : pk.1 ∈ existing
    · rw [if_pos hmem] at hf
      exact Or.inl (hf ▸ rfl)
    · rw [if_neg hmem] at hf
      exact Or.inr ⟨pk.1, goPathBase pk.2, hf.symm⟩

/-- Claim C8 witness: three backed-up profiles of which `base` collides
with an existing target profile: `base` is skipped with a warning and its
staged file removed, `net` and `eth` are created from their staged files. -/
theorem c8_profile_skip_nonfatal_witness :
    restoreProfilesModel
      { createOk := fun _ => true, openOk := fun _ => true, editOk := fun _ => true }
      [lit "base"] [lit "base", lit "net", lit "eth"]
      [lit "u2/backup_X_profile_000_base.yaml", lit "u2/backup_X_profile_001_net.yaml",
        lit "u2/backup_X_profile_002_eth.yaml"] =
      [.warnSkip (lit "base") (lit "backup_X_profile_000_base.yaml"),
        .created (lit "net") (lit "backup_X_profile_001_net.yaml")
          (lit "backup_X_profile_001_net.yaml"),
        .created (lit "eth") (lit "backup_X_profile_002_eth.yaml")
          (lit "backup_X_profile_002_eth.yaml")] := by
  have h := (c8_profile_skip_nonfatal
    { createOk := fun _ => true, openOk := fun _ => true, editOk := fun _ => true }
    [lit "base"] [lit "base", lit "net", lit "eth"]
    [lit "u2/backup_X_profile_000_base.yaml", lit "u2/backup_X_profile_001_net.yaml",
      lit "u2/backup_X_profile_002_eth.yaml"]
    (fun _ => rfl) (fun _ => rfl) (fun _ => rfl)
    ⟨lit "base", by decide, by decide⟩ ⟨lit "net", by decide, by decide⟩).1
  rw [h]
  decide

/-! ### Upload ordering (C4) -/

theorem buildPInfoFun_not_mem {bName p : GoStr} :
    ∀ (ps : List GoStr), p ∉ ps → ∀ (k : Nat) (m : GoStr → GoStr),
      buildPInfoFun bName k m ps p = m p := by
  intro ps
  induction ps with
  | nil => intro _ k m; rfl
  | cons q qs ih =>
    intro h k m
    have hq : ¬(p = q) := fun he => h (by simp [he])
    rw [buildPInfoFun, ih (fun hm => h (by simp [hm])) (k + 1)]
    simp [mapInsert, hq]

theorem uploadProfilesLoop_all (env : BackupEnv) (inst bName : GoStr)
    (hup : ∀ key, env.uploadOk key = true) :
    ∀ (ps : List GoStr), ps.Nodup → ∀ (k : Nat) (m : GoStr → GoStr),
      uploadProfilesLoop env inst (buildPInfoFun bName k m ps) ps =
        (genKeysFrom inst bName k ps, none) := by
  intro ps
  induction ps with
  | nil => intro _ k m; rfl
  | cons p qs ih =>
    intro hnd k m
    have hnmem : p ∉ qs := (List.nodup_cons.mp hnd).1
    have hlook : buildPInfoFun bName k m (p :: qs) p = profileFileName bName k p := by
      rw [buildPInfoFun, buildPInfoFun_not_mem qs hnmem]
      simp [mapInsert]
    rw [uploadProfilesLoop, hlook, if_pos (hup _)]
    have hstep : buildPInfoFun bName k m (p :: qs) =
        buildPInfoFun bName (k + 1) (mapInsert m p (profileFileName bName k p)) qs := rfl
    rw [hstep, ih (List.nodup_cons.mp hnd).2 (k + 1)]
    rw [genKeysFrom]

/-- Claim C4 (amended): in the create-backup pipeline the instance archive
object is uploaded first and every profile object after it, in index
order — the opposite of the claimed profiles-then-instance order. -/
theorem c4_upload_order (env : BackupEnv) (inst : GoStr)
    (htags : env.tagsOk = true)
    (hchk : checkInstanceModel env.lxcListOk env.lxcListOut inst ≠ none)
    (hnodup : (effProfiles env).Nodup)
    (hlen : (effProfiles env).length ≤ 1000)
    (hstat : env.instStatOk = true)
    (hup : ∀ key, env.uploadOk key = true) :
    backupMainModel env inst =
      (none,
        { nameGenerated := true, listedProfiles := true,
          profileExports := effProfiles env, instanceExportRun := true,
          uploads := instanceKeyOf env inst ::
            genKeysFrom inst (backupNameOf env) 0 (effProfiles env) }) := by
  obtain ⟨e, he⟩ := Option.ne_none_iff_exists'.mp hchk
  rw [backupMainModel, if_neg (by simp [htags]), he, if_neg (by omega),
    if_neg (by simp [hstat]), if_neg (by simp [hup]),
    uploadProfilesLoop_all env inst (backupNameOf env) hup (effProfiles env) hnodup 0]

/-- Claim C4 witness: one profile `base`: the instance archive key is
uploaded first, the profile key second. -/
theorem c4_upload_order_witness :
    (backupMainModel
      { tagsOk := true, lxcListOk := true, lxcListOut := lit "u2", profListOk := true,
        profiles := [lit "base"], instStatOk := true, uploadOk := fun _ => true,
        timeStr := lit "T" } (lit "u2")).2.uploads =
      [lit "u2/backup_T_instance.tar.gz", lit "u2/backup_T_profile_000_base.yaml"] := by
  rw [c4_upload_order
    { tagsOk := true, lxcListOk := true, lxcListOut := lit "u2", profListOk := true,
      profiles := [lit "base"], instStatOk := true, uploadOk := fun _ => true,
      timeStr := lit "T" } (lit "u2") rfl (by decide) (by decide) (by decide) rfl
    (fun _ => rfl)]
  decide

/-- Claim C4 counterexample: with one profile `base`, the upload trace of
the pipeline is instance archive first, profile second, so the claimed
profiles-before-instance order fails at this input. -/
theorem c4_counterexample :
    ¬profilesUploadedBeforeInstance
      (goPathJoin (lit "u2") (instanceFileName (lit "backup_T")))
      (backupProfileKeys (lit "u2") (lit "backup_T") [lit "base"])
      ((backupMainModel
        { tagsOk := true, lxcListOk := true, lxcListOut := lit "u2", profListOk := true,
          profiles := [lit "base"], instStatOk := true, uploadOk := fun _ => true,
          timeStr := lit "T" } (lit "u2")).2.uploads) := by decide

/-! ### In-flight status phases and scoped cleanup (C7) -/

theorem find?_filter_ne (m : List (GoStr × RdState)) (n : GoStr) :
    List.find? (fun e => e.1 = n) (m.filter fun e => ¬e.1 = n) = none := by
  induction m with
  | nil => rfl
  | cons e m ih =>
    by_cases he : e.1 = n
    · rw [List.filter_cons, if_neg (by simp [he])]
      exact ih
    · rw [List.filter_cons, if_pos (by simp [he]), List.find?_cons_of_neg _ (by simp [he])]
      exact ih

theorem trkGet_filter (m : List (GoStr × RdState)) (n : GoStr) :
    trkGet (m.filter fun e => ¬e.1 = n) n = none := by
  rw [trkGet, find?_filter_ne]
  rfl

/-- Claim C7: a status query on a backup with an in-flight tracker entry
reports `"generating"` while the progress counter is 0 and `"uploading"`
with the current progress and known size once it is positive (every
stored entry has `Started = true`); without an entry, the response is
derived from the persisted storage metadata, or an error when the object
does not exist; and `performBackup` removes the tracker entry on every
exit path (export, open, stat or put failure, and success alike). -/
theorem c7_status_phases (b : GoStr) (rd : RdState) (stor : Option StoredMeta)
    (m : StoredMeta) (env : PBEnv) (m0 : List (GoStr × RdState))
    (hstarted : rd.started = true) :
    (rd.progress = 0 → infoHandlerModel b (some rd) stor =
      .inflight b rd.size (lit "generating") 0) ∧
    (rd.progress > 0 → infoHandlerModel b (some rd) stor =
      .inflight b rd.size (lit "uploading") rd.progress) ∧
    (infoHandlerModel b none (some m) = .stored b m.lastModified m.size
      (metaLookup m.userMetadata (lit "Optimized") = lit "true")
      (metaLookup m.userMetadata (lit "Compressed") = lit "true") m.tags) ∧
    (infoHandlerModel b none none = .errResp (lit "The specified key does not exist.")) ∧
    trkGet (applyTrkOps m0 (performBackupOps b env).1) b = none ∧
    (∀ op ∈ (performBackupOps b env).1, ∀ n rd2, op = .store n rd2 →
      rd2.started = true) := by
  have hfin : ∀ l : List TrkOp, trkGet (applyTrkOps m0 (l ++ [.pop b])) b = none := by
    intro l
    rw [applyTrkOps, List.foldl_append]
    simp only [List.foldl_cons, List.foldl_nil, applyTrkOp]
    exact trkGet_filter _ _
  refine ⟨?_, ?_, rfl, rfl, ?_, ?_⟩
  · intro hz
    simp [infoHandlerModel, hz, hstarted]
  · intro hpos
    simp [infoHandlerModel, hstarted, hpos]
  · rw [performBackupOps]
    by_cases h1 : ¬env.exportOk
    · rw [if_pos h1]
      exact hfin [.store b ⟨true, 0, 0⟩]
    · rw [if_neg h1]
      by_cases h2 : ¬env.openOk
      · rw [if_pos h2]
        exact hfin [.store b ⟨true, 0, 0⟩]
      · rw [if_neg h2]
        by_cases h3 : ¬env.statOk
        · rw [if_pos h3]
          exact hfin [.store b ⟨true, 0, 0⟩]
        · rw [if_neg h3]
          exact hfin [.store b ⟨true, 0, 0⟩, .store b ⟨true, env.fileSize, 0⟩]
  · intro op hop n rd2 heq
    rw [performBackupOps] at hop
    have hcase : op = TrkOp.store b ⟨true, 0, 0⟩ ∨
        op = TrkOp.store b ⟨true, env.fileSize, 0⟩ ∨ op = TrkOp.pop b := by
      by_cases h1 : ¬env.exportOk
      · rw [if_pos h1] at hop
        simp at hop
        tauto
      · rw [if_neg h1] at hop
        by_cases h2 : ¬env.openOk
        · rw [if_pos h2] at hop
          simp at hop
          tauto
        · rw [if_neg h2] at hop
          by_cases h3 : ¬env.statOk
          · rw [if_pos h3] at hop
            simp at hop
            tauto
          · rw [if_neg h3] at hop
            simp at hop
            tauto
    rcases hcase with hc | hc | hc
    · subst hc
      injection heq with hn hrd
      rw [← hrd]
    · subst hc
      injection heq with hn hrd
      rw [← hrd]
    · subst hc
      exact TrkOp.noConfusion heq

/-- Claim C7 witness: a started entry with progress 0 reports
`"generating"`, and a full successful `performBackup` run leaves no
tracker entry behind. -/
theorem c7_status_phases_witness :
    infoHandlerModel (lit "bk") (some ⟨true, 7, 0⟩) none =
      .inflight (lit "bk") 7 (lit "generating") 0 ∧
    trkGet (applyTrkOps [] (performBackupOps (lit "bk")
      ⟨true, true, true, true, 42⟩).1) (lit "bk") = none :=
  ⟨(c7_status_phases (lit "bk") ⟨true, 7, 0⟩ none ⟨42, lit "now", [], []⟩
      ⟨true, true, true, true, 42⟩ [] rfl).1 rfl,
    (c7_status_phases (lit "bk") ⟨true, 7, 0⟩ none ⟨42, lit "now", [], []⟩
      ⟨true, true, true, true, 42⟩ [] rfl).2.2.2.2.1⟩

/-! ### Versioned delete and its fallback (C9) -/

theorem listAndDeleteLoop_versioned (removeOk : GoStr → Bool)
    (hok : ∀ k, removeOk k = true) :
    ∀ (objs : List (GoStr × GoStr)) (acc : List DelOp) (curVid : GoStr),
      listAndDeleteLoop removeOk true curVid acc (objs.map fun o => DLItem.obj o.1 o.2) =
        (acc ++ objs.map fun o => DelOp.mk o.1 o.2, none) := by
  intro objs
  induction objs with
  | nil => intro acc curVid; simp [listAndDeleteLoop]
  | cons o os ih =>
    intro acc curVid
    rw [List.map_cons, listAndDeleteLoop, if_pos (hok _)]
    simp only [if_pos rfl]
    rw [ih]
    simp [List.append_assoc]

/-- Claim C9 (code bug): when the versioned listing succeeds, every
listed object version is removed with its version ID and the delete
completes without error; but on the `NotImplemented` fallback the
operation completes without error having removed nothing — the
re-assigned listing channel is never consumed because Go evaluates the
range expression once — instead of removing current versions. -/
theorem c9_delete_versions (removeOk : GoStr → Bool) (objs : List (GoStr × GoStr))
    (hok : ∀ k, removeOk k = true) :
    listAndDeleteModel removeOk (objs.map fun o => DLItem.obj o.1 o.2) =
      (objs.map fun o => DelOp.mk o.1 o.2, none) ∧
    listAndDeleteModel removeOk [DLItem.derr (lit "NotImplemented")] = ([], none) := by
  constructor
  · rw [listAndDeleteModel, listAndDeleteLoop_versioned removeOk hok objs [] []]
    rw [List.nil_append]
  · rfl

/-- Claim C9 witness: three historical versions of one object are each
removed with their version ID; on the fallback input nothing is removed
and no error is returned. -/
theorem c9_delete_versions_witness :
    listAndDeleteModel (fun _ => true)
      ([(lit "u2/backup_X_instance.tar.gz", lit "v1"),
        (lit "u2/backup_X_instance.tar.gz", lit "v2"),
        (lit "u2/backup_X_instance.tar.gz", lit "v3")].map
          fun o => DLItem.obj o.1 o.2) =
      ([(lit "u2/backup_X_instance.tar.gz", lit "v1"),
        (lit "u2/backup_X_instance.tar.gz", lit "v2"),
        (lit "u2/backup_X_instance.tar.gz", lit "v3")].map
          fun o => DelOp.mk o.1 o.2, none) ∧
    listAndDeleteModel (fun _ => true) [DLItem.derr (lit "NotImplemented")] = ([], none) :=
  c9_delete_versions (fun _ => true)
    [(lit "u2/backup_X_instance.tar.gz", lit "v1"),
      (lit "u2/backup_X_instance.tar.gz", lit "v2"),
      (lit "u2/backup_X_instance.tar.gz", lit "v3")] (fun _ => rfl)

/-! ### Backup pre-flight existence check (C10) -/

/-- Claim C10: when the listing command succeeds and its trimmed output
differs from the requested name, the CLI backup returns the
`no instance found by name` error with an empty effect trace (no backup
name generated, nothing exported or uploaded); and whenever the pipeline
does generate a backup name, the existence check had returned an error. -/
theorem c10_backup_requires_instance (env : BackupEnv) (inst : GoStr) :
    (env.tagsOk = true → env.lxcListOk = true → trimSpace env.lxcListOut ≠ inst →
      backupMainModel env inst = (some (.noInstanceFound inst), {}) ∧
      berrMsg (.noInstanceFound inst) =
        lit "no instance found by name: '" ++ inst ++ ['\'']) ∧
    ((backupMainModel env inst).2.nameGenerated = true →
      checkInstanceModel env.lxcListOk env.lxcListOut inst ≠ none) := by
  constructor
  · intro htags hok hne
    have hc : checkInstanceModel env.lxcListOk env.lxcListOut inst = none := by
      rw [checkInstanceModel]
      simp [hok, hne]
    exact ⟨by rw [backupMainModel, if_neg (by simp [htags]), hc], rfl⟩
  · intro hgen hc
    by_cases htags : env.tagsOk = true
    · rw [backupMainModel, if_neg (by simp [htags]), hc] at hgen
      simp at hgen
    · rw [backupMainModel, if_pos (by simp [htags])] at hgen
      simp at hgen

/-- Claim C10 witness: listing output `u22` for requested instance `u2`
yields the `no instance found` error and the empty trace. -/
theorem c10_backup_requires_instance_witness :
    backupMainModel
      { tagsOk := true, lxcListOk := true, lxcListOut := lit "u22", profListOk := true,
        profiles := [], instStatOk := true, uploadOk := fun _ => true,
        timeStr := lit "T" } (lit "u2") =
      (some (.noInstanceFound (lit "u2")), {}) :=
  ((c10_backup_requires_instance
    { tagsOk := true, lxcListOk := true, lxcListOut := lit "u22", profListOk := true,
      profiles := [], instStatOk := true, uploadOk := fun _ => true,
      timeStr := lit "T" } (lit "u2")).1 rfl rfl (by decide)).1

end Lxmin

